import Mathlib

/-!
# Verification of the mouse-warp pointer engine

Shallow embedding of `mouse-warp.py`: the per-tick decision engine that
wraps the pointer at screen edges, amplifies motion under a modifier,
switches monitors on a modifier gesture, and classifies monitor crossings.

Coordinates are integers (`ℤ`), timestamps are rationals (`ℚ`, seconds).
External collaborators (X11 pointer queries/moves, xrandr enumeration) are
modelled as explicit inputs; the directives the engine would issue
(`xdotool mousemove` targets, indicator requests) are explicit outputs.
-/

namespace MouseWarp

/-- Timestamps, in seconds (`time.time()` values). -/
abbrev Time := ℚ

/-- A screen edge, as used by the resistance and pressure dictionaries
(`'left' | 'right' | 'top' | 'bottom'`). -/
inductive Edge
  | left
  | right
  | top
  | bottom
deriving DecidableEq, Repr

/-- A dictionary keyed by the four edges, embedding the Python dicts
`{'left': _, 'right': _, 'top': _, 'bottom': _}`. -/
structure EdgeMap (α : Type) where
  left : α
  right : α
  top : α
  bottom : α
deriving DecidableEq, Repr

/-- Dictionary lookup `m[edge]`. -/
def EdgeMap.get {α : Type} (m : EdgeMap α) : Edge → α
  | .left => m.left
  | .right => m.right
  | .top => m.top
  | .bottom => m.bottom

/-- Dictionary assignment `m[edge] = v`. -/
def EdgeMap.set {α : Type} (m : EdgeMap α) : Edge → α → EdgeMap α
  | .left, v => { m with left := v }
  | .right, v => { m with right := v }
  | .top, v => { m with top := v }
  | .bottom, v => { m with bottom := v }

/-- The constant dictionary (used for resets to `0` on all four edges). -/
def EdgeMap.const {α : Type} (v : α) : EdgeMap α := ⟨v, v, v, v⟩

/-- A monitor rectangle `(x1, y1, x2, y2)` as produced by parsing
`xrandr` output (`(x, y, x + w, y + h)`): half-open on the right/bottom. -/
structure Rect where
  x1 : ℤ
  y1 : ℤ
  x2 : ℤ
  y2 : ℤ
deriving DecidableEq, Repr, Inhabited

/-- Half-open containment test `mx1 <= cx < mx2 and my1 <= cy < my2`
from `get_monitor_at`. -/
def Rect.contains (m : Rect) (cx cy : ℤ) : Bool :=
  decide (m.x1 ≤ cx ∧ cx < m.x2 ∧ m.y1 ≤ cy ∧ cy < m.y2)

/-- Squared Euclidean distance from `(cx, cy)` to a monitor's integer
center `((mx1 + mx2) // 2, (my1 + my2) // 2)`; Python `//` is floor
division, embedded as `Int.fdiv`.  This is the `dist` computed in the
fallback loop of `get_monitor_at`. -/
def sqDist (m : Rect) (cx cy : ℤ) : ℤ :=
  (cx - Int.fdiv (m.x1 + m.x2) 2) ^ 2 + (cy - Int.fdiv (m.y1 + m.y2) 2) ^ 2

/-- First loop of `get_monitor_at`: return the index of the first
rectangle containing the point, scanning from index `i`. -/
def findContaining (cx cy : ℤ) : List Rect → ℕ → Option ℕ
  | [], _ => none
  | m :: rest, i =>
    if m.contains cx cy then some i else findContaining cx cy rest (i + 1)

/-- Fallback loop of `get_monitor_at`: thread `(min_dist, closest)`
through the monitor list; `min_dist` starts at `float('inf')`, embedded
as `none`, and `closest` starts at `0`. -/
def closestLoop (cx cy : ℤ) : List Rect → ℕ → Option ℤ × ℕ → Option ℤ × ℕ
  | [], _, acc => acc
  | m :: rest, i, (bd, bi) =>
    let d := sqDist m cx cy
    let acc :=
      match bd with
      | none => (some d, i)
      | some b => if d < b then (some d, i) else (some b, bi)
    closestLoop cx cy rest (i + 1) acc

/-- Index of the monitor whose center is closest (first minimizer wins,
since the loop updates only on a strict `<`). -/
def closestIdx (l : List Rect) (cx cy : ℤ) : ℕ :=
  (closestLoop cx cy l 0 (none, 0)).2

/-- `get_monitor_at(cx, cy)`: containing rectangle's index, else the
index of the rectangle with the nearest center. -/
def get_monitor_at (l : List Rect) (cx cy : ℤ) : ℕ :=
  match findContaining cx cy l 0 with
  | some i => i
  | none => closestIdx l cx cy

/-- Overall screen bounds, as returned by `get_screen_bounds()`. -/
structure Bounds where
  min_x : ℤ
  min_y : ℤ
  max_x : ℤ
  max_y : ℤ
deriving DecidableEq, Repr

/-- `get_screen_bounds()`: min/max extent over the monitor list, or
`(0, 0, SCREEN_W, SCREEN_H)` when the list is empty. -/
def get_screen_bounds (l : List Rect) (sw sh : ℤ) : Bounds :=
  match l with
  | [] => ⟨0, 0, sw, sh⟩
  | m :: ms =>
    ⟨ms.foldl (fun a r => min a r.x1) m.x1,
     ms.foldl (fun a r => min a r.y1) m.y1,
     ms.foldl (fun a r => max a r.x2) m.x2,
     ms.foldl (fun a r => max a r.y2) m.y2⟩

/-- `warp_to_monitor` target: center of the monitor at `idx`, guarded by
`0 <= idx < len(mon_list)`; Python `//` is floor division. -/
def warpTarget (l : List Rect) (idx : ℕ) : Option (ℤ × ℤ) :=
  if idx < l.length then
    let m := l.getD idx default
    some (Int.fdiv (m.x1 + m.x2) 2, Int.fdiv (m.y1 + m.y2) 2)
  else none

/-! ## Configuration

The tunables consumed by the decision engine (section names follow
`DEFAULT_CONFIG`); thresholds configured as whole pixels are `ℤ`, the
float-valued tunables (`multiplier`, `velocity_threshold`, times) are `ℚ`. -/

/-- The `edge_resistance.mode` string, as a closed variant. -/
inductive ERMode
  | none
  | time
  | distance
  | velocity
deriving DecidableEq, Repr

/-- The `highlight.monitor_cross_style` string (`brackets` / `edge_flash`). -/
inductive CrossStyle
  | brackets
  | edgeFlash
deriving DecidableEq, Repr

/-- Configuration snapshot. -/
structure Config where
  edge_wrap_enabled : Bool
  edge_wrap_horizontal : Bool
  edge_wrap_vertical : Bool
  er_enabled : Bool
  er_mode : ERMode
  time_delay : Time
  distance_threshold : ℤ
  velocity_threshold : ℚ
  monitor_switch_enabled : Bool
  shift_threshold : ℤ
  acceleration_enabled : Bool
  multiplier : ℚ
  accel_edge_resistance : ℤ
  highlight_enabled : Bool
  monitor_cross_style : CrossStyle
  natural_cross_threshold : ℤ
deriving DecidableEq, Repr

/-! ## Edge resistance (`class EdgeResistance`) -/

/-- Mutable state of `EdgeResistance`: per-edge first-hit timestamps
(time mode), per-edge accumulated pressure (distance mode), and the
tracking pair `last_pos` / `last_time`. -/
structure ERState where
  edge_hit_time : EdgeMap (Option Time)
  edge_pressure : EdgeMap ℤ
  last_pos : Option (ℤ × ℤ)
  last_time : Option Time
deriving DecidableEq, Repr

/-- `EdgeResistance.reset()` / the freshly-constructed state. -/
def ERState.init : ERState :=
  ⟨EdgeMap.const none, EdgeMap.const 0, none, none⟩

/-- `EdgeResistance.update(x, y, now)`. -/
def ERState.update (s : ERState) (x y : ℤ) (now : Time) : ERState :=
  { s with last_pos := some (x, y), last_time := some now }

/-- `EdgeResistance.clear_edge(edge)`. -/
def ERState.clear_edge (s : ERState) (edge : Edge) : ERState :=
  { s with edge_hit_time := s.edge_hit_time.set edge none,
           edge_pressure := s.edge_pressure.set edge 0 }

/-- `EdgeResistance._check_time(edge, now)`. -/
def checkTime (cfg : Config) (s : ERState) (edge : Edge) (now : Time) : Bool × ERState :=
  match s.edge_hit_time.get edge with
  | none => (false, { s with edge_hit_time := s.edge_hit_time.set edge (some now) })
  | some t0 =>
    if cfg.time_delay ≤ now - t0 then
      (true, { s with edge_hit_time := s.edge_hit_time.set edge none })
    else (false, s)

/-- `EdgeResistance._check_distance(edge, x, y)`: when a previous sample
exists, add the absolute orthogonal movement (vertical for left/right
edges, horizontal for top/bottom) to that edge's pressure, then allow
and reset exactly when the pressure has reached the threshold. -/
def checkDistance (cfg : Config) (s : ERState) (edge : Edge) (x y : ℤ) : Bool × ERState :=
  let s1 :=
    match s.last_pos with
    | some (lx, ly) =>
      if edge = Edge.left ∨ edge = Edge.right then
        { s with edge_pressure :=
            s.edge_pressure.set edge (s.edge_pressure.get edge + |y - ly|) }
      else
        { s with edge_pressure :=
            s.edge_pressure.set edge (s.edge_pressure.get edge + |x - lx|) }
    | none => s
  if cfg.distance_threshold ≤ s1.edge_pressure.get edge then
    (true, { s1 with edge_pressure := s1.edge_pressure.set edge 0 })
  else (false, s1)

/-- `sqrt a ≥ b` for a nonnegative `a`, expressed over `ℚ` without a
square root: true when `b ≤ 0` (a square root is nonnegative) and
otherwise exactly when `b ^ 2 ≤ a`.  `sqrtGE_iff` relates it to the
real square root. -/
def sqrtGE (a b : ℚ) : Bool :=
  decide (b ≤ 0 ∨ b ^ 2 ≤ a)

/-- `EdgeResistance._check_velocity(x, y, now)`: the source computes
`velocity = sqrt(dx**2 + dy**2) / dt` and returns `velocity >= threshold`;
with `dt > 0` that comparison equals `sqrtGE (dx^2 + dy^2) (threshold * dt)`,
which is how it is embedded over `ℚ` (see `check_velocity_spec`). -/
def checkVelocity (cfg : Config) (s : ERState) (x y : ℤ) (now : Time) : Bool :=
  match s.last_pos, s.last_time with
  | some (lx, ly), some t =>
    let dt := now - t
    if 0 < dt then
      sqrtGE (((x - lx : ℤ) : ℚ) ^ 2 + ((y - ly : ℤ) : ℚ) ^ 2) (cfg.velocity_threshold * dt)
    else false
  | _, _ => false

/-- `EdgeResistance.should_allow_wrap(edge, x, y, now)`.  The mode string
is embedded as the closed variant `ERMode`, so the source's trailing
`return True` for an unrecognized mode has no counterpart. -/
def shouldAllowWrap (cfg : Config) (s : ERState) (edge : Edge) (x y : ℤ) (now : Time) :
    Bool × ERState :=
  if cfg.er_enabled = false then (true, s)
  else
    match cfg.er_mode with
    | .none => (true, s)
    | .time => checkTime cfg s edge now
    | .distance => checkDistance cfg s edge x y
    | .velocity => (checkVelocity cfg s x y now, s)

/-! ## Acceleration transform (`Ctrl + movement` block of `main`) -/

/-- Python `int()` applied to a rational: truncation toward zero. -/
def truncQ (q : ℚ) : ℤ :=
  if q < 0 then ⌈q⌉ else ⌊q⌋

/-- `prev + int(delta * multiplier)`: amplified position along one axis,
starting from the previous raw position. -/
def accelAmp (cfg : Config) (p d : ℤ) : ℤ :=
  p + truncQ ((d : ℚ) * cfg.multiplier)

/-- One low-boundary check of the acceleration edge resistance
(`new_x < mx1` / `new_y < my1` blocks): returns the new position and the
new pressure of that edge. -/
def accelEdgeLow (pos bound pressure r : ℤ) : ℤ × ℤ :=
  if pos < bound then
    let p := pressure + (bound - pos)
    if p < r then (bound, p) else (pos, 0)
  else (pos, 0)

/-- One high-boundary check (`new_x >= mx2` / `new_y >= my2` blocks);
`bound` is the exclusive bound `mx2`/`my2`, the hold position is
`bound - 1` and the overflow is `pos - (bound - 1)`. -/
def accelEdgeHigh (pos bound pressure r : ℤ) : ℤ × ℤ :=
  if bound ≤ pos then
    let p := pressure + (pos - (bound - 1))
    if p < r then (bound - 1, p) else (pos, 0)
  else (pos, 0)

/-- Core of the acceleration block, entered when the delta is non-zero:
amplify from the previous position, then run the four edge checks in
source order (left, right, top, bottom — the right/bottom checks see the
position already adjusted by the left/top checks), or hard-clamp when
`acceleration.edge_resistance` is 0.  Returns `(new_x, new_y, pressures)`. -/
def accelCore (cfg : Config) (l : List Rect) (px py : ℤ) (ap : EdgeMap ℤ) (x y : ℤ) :
    ℤ × ℤ × EdgeMap ℤ :=
  let m := l.getD (get_monitor_at l px py) default
  let new_x := accelAmp cfg px (x - px)
  let new_y := accelAmp cfg py (y - py)
  if 0 < cfg.accel_edge_resistance then
    let r1 := accelEdgeLow new_x m.x1 (ap.get .left) cfg.accel_edge_resistance
    let r2 := accelEdgeHigh r1.1 m.x2 (ap.get .right) cfg.accel_edge_resistance
    let r3 := accelEdgeLow new_y m.y1 (ap.get .top) cfg.accel_edge_resistance
    let r4 := accelEdgeHigh r3.1 m.y2 (ap.get .bottom) cfg.accel_edge_resistance
    (r2.1, r4.1, ⟨r1.2, r2.2, r3.2, r4.2⟩)
  else
    (max m.x1 (min (m.x2 - 1) new_x), max m.y1 (min (m.y2 - 1) new_y), ap)

/-- The full `Ctrl + movement` block: runs `accelCore` when the
acceleration modifier is held, acceleration is enabled and a previous
position exists (and the delta is non-zero); otherwise decays all four
pressure counters to zero (except on a zero delta, which leaves
everything untouched).  The fourth component is the `move_mouse` command
issued when the computed position differs from the sampled one. -/
def accelStep (cfg : Config) (l : List Rect) (prev : Option (ℤ × ℤ)) (ap : EdgeMap ℤ)
    (x y : ℤ) (ctrl : Bool) : ℤ × ℤ × EdgeMap ℤ × Option (ℤ × ℤ) :=
  match prev with
  | some (px, py) =>
    if cfg.acceleration_enabled = true ∧ ctrl = true then
      if x - px ≠ 0 ∨ y - py ≠ 0 then
        let c := accelCore cfg l px py ap x y
        (c.1, c.2.1, c.2.2, if c.1 ≠ x ∨ c.2.1 ≠ y then some (c.1, c.2.1) else none)
      else (x, y, ap, none)
    else (x, y, EdgeMap.const 0, none)
  | none => (x, y, EdgeMap.const 0, none)

/-! ## Monitor-switch gesture (`Shift + movement` block of `main`) -/

/-- The `Shift + movement` block: while the switch modifier is held and
the cooldown (> 0.4 s since `last_warp_time`) has elapsed, a horizontal
delta from the previous raw position beyond the threshold warps to the
center of the adjacent monitor of the *sampled position's* monitor
(`get_monitor_at(x, y)`), guarded by `cur > 0` on the left and
`cur < len - 1` on the right.  Returns
`(directive (target index and center), new last_warp_time, new x, new y)`
where the new position models the `get_mouse_pos()` re-query after a
successful move. -/
def switchStep (cfg : Config) (l : List Rect) (prev_x : Option ℤ) (shift : Bool)
    (x y : ℤ) (now lwt : Time) : Option (ℕ × ℤ × ℤ) × Time × ℤ × ℤ :=
  if cfg.monitor_switch_enabled = true then
    match prev_x with
    | some px =>
      if shift = true ∧ 2/5 < now - lwt then
        if x - px < -cfg.shift_threshold then
          if 0 < get_monitor_at l x y then
            match warpTarget l (get_monitor_at l x y - 1) with
            | some (tx, ty) => (some (get_monitor_at l x y - 1, tx, ty), now, tx, ty)
            | none => (none, lwt, x, y)
          else (none, lwt, x, y)
        else if cfg.shift_threshold < x - px then
          if get_monitor_at l x y < l.length - 1 then
            match warpTarget l (get_monitor_at l x y + 1) with
            | some (tx, ty) => (some (get_monitor_at l x y + 1, tx, ty), now, tx, ty)
            | none => (none, lwt, x, y)
          else (none, lwt, x, y)
        else (none, lwt, x, y)
      else (none, lwt, x, y)
    | none => (none, lwt, x, y)
  else (none, lwt, x, y)

/-! ## Edge wrapping (the `Edge wrapping` block of `main`) -/

/-- `mon_list[get_monitor_at(x, y)]`: the current monitor's rectangle. -/
def monRectAt (l : List Rect) (x y : ℤ) : Rect :=
  l.getD (get_monitor_at l x y) default

/-- The edge-wrapping block: vertical axis first against the current
monitor's bounds, then horizontal axis against the overall screen
bounds, each gated by `should_allow_wrap`.  The resistance state is
threaded through both checks; a fired wrap clears its edge, and only a
fired *horizontal* wrap stamps `last_warp_time` and re-derives
`prev_monitor`.  The returned list holds the `move_mouse` targets tagged
by the triggering edge; the source does not fold these back into the
tick's local `x`/`y`. -/
def edgeWrapVertical (cfg : Config) (m : Rect) (er0 : ERState) (x y : ℤ) (now : Time) :
    ERState × List (Edge × ℤ × ℤ) :=
  if cfg.edge_wrap_vertical = true then
    if y ≤ m.y1 then
      let a := shouldAllowWrap cfg er0 .top x y now
      if a.1 = true then (a.2.clear_edge .top, [(Edge.top, x, m.y2 - 2)])
      else (a.2, [])
    else if m.y2 - 1 ≤ y then
      let a := shouldAllowWrap cfg er0 .bottom x y now
      if a.1 = true then (a.2.clear_edge .bottom, [(Edge.bottom, x, m.y1 + 1)])
      else (a.2, [])
    else ((er0.clear_edge .top).clear_edge .bottom, [])
  else (er0, [])

def edgeWrapHorizontal (cfg : Config) (l : List Rect) (b : Bounds) (er1 : ERState)
    (lwt : Time) (prevMon : Option ℕ) (x y : ℤ) (now : Time) :
    ERState × Time × Option ℕ × List (Edge × ℤ × ℤ) :=
  if cfg.edge_wrap_horizontal = true then
    if x ≤ b.min_x then
      let a := shouldAllowWrap cfg er1 .left x y now
      if a.1 = true then
        (a.2.clear_edge .left, now, some (get_monitor_at l (b.max_x - 2) y),
          [(Edge.left, b.max_x - 2, y)])
      else (a.2, lwt, prevMon, ([] : List (Edge × ℤ × ℤ)))
    else if b.max_x - 1 ≤ x then
      let a := shouldAllowWrap cfg er1 .right x y now
      if a.1 = true then
        (a.2.clear_edge .right, now, some (get_monitor_at l (b.min_x + 1) y),
          [(Edge.right, b.min_x + 1, y)])
      else (a.2, lwt, prevMon, [])
    else ((er1.clear_edge .left).clear_edge .right, lwt, prevMon, [])
  else (er1, lwt, prevMon, [])

def edgeWrapStep (cfg : Config) (l : List Rect) (sw sh : ℤ) (er0 : ERState)
    (lwt : Time) (prevMon : Option ℕ) (x y : ℤ) (now : Time) :
    ERState × Time × Option ℕ × List (Edge × ℤ × ℤ) :=
  if cfg.edge_wrap_enabled = true then
    let v := edgeWrapVertical cfg (monRectAt l x y) er0 x y now
    let hz := edgeWrapHorizontal cfg l (get_screen_bounds l sw sh) v.1 lwt prevMon x y now
    (hz.1, hz.2.1, hz.2.2.1, v.2 ++ hz.2.2.2)
  else (er0, lwt, prevMon, [])

/-! ## Crossing classifier (the `Detect natural monitor crossing` block) -/

/-- The indicator directive the crossing block requests. `natural` is the
edge-flash at the shared boundary, `teleBrackets` / `teleFlash` the two
monitor-cross styles for a teleport, `teleSilent` the teleport branch
that falls through every direction test (edge-flash style with neither
origin differing) and requests nothing, and `skip` means the block did
not classify at all this tick. -/
inductive CrossOutcome
  | natural (e : Edge) (edgePos : ℤ) (crossPos : ℤ)
  | teleBrackets (x y : ℤ)
  | teleFlash (e : Edge) (edgePos : ℤ) (crossPos : ℤ)
  | teleSilent
  | skip
deriving DecidableEq, Repr

/-- The `is_natural_crossing` / `entry_edge` chain: resolves the crossing
direction by comparing the new and old rectangles' origins (x first,
then y) and tests the natural-cross band on the entry side. -/
def naturalEdge (nm om : Rect) (x y t : ℤ) : Option (Edge × ℤ) :=
  if om.x1 < nm.x1 then (if x < nm.x1 + t then some (.left, nm.x1) else none)
  else if nm.x1 < om.x1 then (if nm.x2 - t < x then some (.right, nm.x2) else none)
  else if om.y1 < nm.y1 then (if y < nm.y1 + t then some (.top, nm.y1) else none)
  else if nm.y1 < om.y1 then (if nm.y2 - t < y then some (.bottom, nm.y2) else none)
  else none

/-- The teleport branch's `edge_flash` direction chain (same comparisons
as `naturalEdge`, without the band test); falls through to no indicator
when neither origin differs. -/
def teleFlashDir (nm om : Rect) (x y : ℤ) : CrossOutcome :=
  if om.x1 < nm.x1 then .teleFlash .left nm.x1 y
  else if nm.x1 < om.x1 then .teleFlash .right nm.x2 y
  else if om.y1 < nm.y1 then .teleFlash .top nm.y1 x
  else if nm.y1 < om.y1 then .teleFlash .bottom nm.y2 x
  else .teleSilent

/-- The crossing-classification block of `main`: runs when the current
monitor differs from `prev_monitor` and more than 100 ms have elapsed
since the last warp, and only with highlighting enabled; classifies
natural-vs-teleport, stamps `last_warp_time` on any classification, and
returns the new `prev_monitor` (always the current monitor index). -/
def crossingStep (cfg : Config) (l : List Rect) (prevMon : Option ℕ) (x y : ℤ)
    (now lwt : Time) : CrossOutcome × Time × ℕ :=
  let cur := get_monitor_at l x y
  match prevMon with
  | some pm =>
    if cur ≠ pm ∧ 1/10 < now - lwt then
      if cfg.highlight_enabled = true then
        let nm := l.getD cur default
        let om := l.getD pm default
        match naturalEdge nm om x y cfg.natural_cross_threshold with
        | some (e, pos) =>
          (.natural e pos (if e = Edge.left ∨ e = Edge.right then y else x), now, cur)
        | none =>
          match cfg.monitor_cross_style with
          | .brackets => (.teleBrackets x y, now, cur)
          | .edgeFlash => (teleFlashDir nm om x y, now, cur)
      else (.skip, lwt, cur)
    else (.skip, lwt, cur)
  | none => (.skip, lwt, cur)

/-- Does the outcome classify the arrival as a natural crossing? -/
def CrossOutcome.isNatural : CrossOutcome → Bool
  | .natural _ _ _ => true
  | _ => false

/-- Does the outcome classify the arrival as a teleport? -/
def CrossOutcome.isTeleport : CrossOutcome → Bool
  | .teleBrackets _ _ => true
  | .teleFlash _ _ _ => true
  | .teleSilent => true
  | _ => false

/-! ## The tick (one iteration of the `while True` loop of `main`) -/

/-- The orchestrator's mutable state across ticks (the module-level
globals threaded through `main`). -/
structure LoopState where
  mon_list : List Rect
  screen_w : ℤ
  screen_h : ℤ
  prev : Option (ℤ × ℤ)
  last_warp_time : Time
  prev_shift : Bool
  accel_pressure : EdgeMap ℤ
  prev_monitor : Option ℕ
  er : ERState
deriving Repr

/-- What one tick produces: the new state, the `move_mouse` targets in
issue order, whether any edge-wrap fired, and the crossing outcome. -/
structure TickOut where
  state : LoopState
  moves : List (ℤ × ℤ)
  wrapFired : Bool
  outcome : CrossOutcome
deriving Repr

/-- One iteration of the main loop on a pointer sample `(x, y)` with
modifier flags, in source order: acceleration, cooldown reset on a shift
re-press, monitor-switch gesture, committing `prev_x`/`prev_y`/
`prev_shift`, edge wrapping, crossing classification, and the
unconditional `edge_resistance.update(x, y, now)` — note the source does
not fold an edge-wrap's move target back into its local `x`/`y`, so the
final update records the pre-wrap position. -/
def tick (cfg : Config) (s : LoopState) (x y : ℤ) (shift ctrl : Bool) (now : Time) : TickOut :=
  let a := accelStep cfg s.mon_list s.prev s.accel_pressure x y ctrl
  let lwt0 := if shift = true ∧ s.prev_shift = false then 0 else s.last_warp_time
  let sw := switchStep cfg s.mon_list (s.prev.map Prod.fst) shift a.1 a.2.1 now lwt0
  let ew := edgeWrapStep cfg s.mon_list s.screen_w s.screen_h s.er sw.2.1 s.prev_monitor
      sw.2.2.1 sw.2.2.2 now
  let cr := crossingStep cfg s.mon_list ew.2.2.1 sw.2.2.1 sw.2.2.2 now ew.2.1
  { state := { s with
      prev := some (sw.2.2.1, sw.2.2.2),
      last_warp_time := cr.2.1,
      prev_shift := shift,
      accel_pressure := a.2.2.1,
      prev_monitor := some cr.2.2,
      er := (ew.1).update sw.2.2.1 sw.2.2.2 now },
    moves := a.2.2.2.toList ++ (sw.1.map (fun d => (d.2.1, d.2.2))).toList ++
      (ew.2.2.2.map (fun w => (w.2.1, w.2.2))),
    wrapFired := decide (ew.2.2.2 ≠ []),
    outcome := cr.1 }

/-- The position the tick actually left the cursor at, assuming moves
succeed: the last `move_mouse` target, or the sampled position if no
move was issued. -/
def committedPos (x y : ℤ) (moves : List (ℤ × ℤ)) : ℤ × ℤ :=
  moves.getLast?.getD (x, y)

/-! ## External-call failures (C8) -/

/-- Results of the external calls a tick makes.  `pointer` models
`query_pointer()`, an Xlib call with *no* try/except around it anywhere
on the main-loop path; `move_results` models the `xdotool mousemove`
outcomes — `move_mouse` catches its own exceptions and returns `False`,
a value the loop never inspects. -/
structure Oracle where
  pointer : Except Unit (ℤ × ℤ × Bool × Bool)
  move_results : List Bool
deriving Repr

/-- One tick with its external calls explicit: an exception from the
pointer query propagates out of the tick (`main` handles only
`KeyboardInterrupt`), while move failures are absorbed inside
`move_mouse` and cannot alter the tick's control flow (the tick does not
read `move_results` at all). -/
def tickExc (cfg : Config) (o : Oracle) (s : LoopState) (now : Time) :
    Except Unit TickOut :=
  match o.pointer with
  | .error e => .error e
  | .ok (x, y, shift, ctrl) => .ok (tick cfg s x y shift ctrl now)

/-! ## Geometry refresh (`refresh_monitor_geometry`, C9) -/

/-- One step of the insertion sort embedding Python's
`sort(key=lambda m: (m[0], m[1]))` (ascending by (x, y) origin). -/
def insertRect (r : Rect) : List Rect → List Rect
  | [] => [r]
  | a :: rest =>
    if r.x1 < a.x1 ∨ (r.x1 = a.x1 ∧ r.y1 ≤ a.y1) then r :: a :: rest
    else a :: insertRect r rest

/-- `new_mon_list.sort(key=lambda m: (m[0], m[1]))`. -/
def sortRects (l : List Rect) : List Rect :=
  l.foldr insertRect []

/-- The geometry globals: `mon_list`, `SCREEN_W`, `SCREEN_H`,
`_last_geometry_refresh`. -/
structure GeoState where
  mon_list : List Rect
  screen_w : ℤ
  screen_h : ℤ
  last_refresh : Time
deriving Repr

/-- The non-debounced body of `refresh_monitor_geometry`: take the
xrandr-parsed list (empty on failure) and the xdpyinfo dimensions (zero
on failure); if the list is empty or the width is 0, take the screen
size from the root window geometry and, if the list is empty, fall back
to a single rectangle spanning it; then sort and compare with the old
state to compute `changed`. -/
def refreshCompute (nl0 : List Rect) (wh0 : ℤ × ℤ) (root_geom : ℤ × ℤ)
    (s : GeoState) (now : Time) : Bool × GeoState :=
  let p :=
    if nl0 = [] ∨ wh0.1 = 0 then
      (if nl0 = [] then [(⟨0, 0, root_geom.1, root_geom.2⟩ : Rect)] else nl0,
        root_geom.1, root_geom.2)
    else (nl0, wh0.1, wh0.2)
  (decide (¬(sortRects p.1 = s.mon_list ∧ p.2.1 = s.screen_w ∧ p.2.2 = s.screen_h)),
    ⟨sortRects p.1, p.2.1, p.2.2, now⟩)

/-- `refresh_monitor_geometry(force)`: debounced — a non-forced call
within 200 ms of the previous refresh returns `False` and leaves the
state untouched; otherwise the body runs on the enumeration results
(`none` models an xrandr/xdpyinfo failure). -/
def refresh_monitor_geometry (force : Bool) (now : Time)
    (xrandr_monitors : Option (List Rect)) (xdpy_dims : Option (ℤ × ℤ))
    (root_geom : ℤ × ℤ) (s : GeoState) : Bool × GeoState :=
  if force = false ∧ now - s.last_refresh < 1/5 then (false, s)
  else refreshCompute (xrandr_monitors.getD []) (xdpy_dims.getD (0, 0)) root_geom s now

/-! ## Properties -/

/-! ## Lemmas about `get_monitor_at` -/

lemma findContaining_some {cx cy : ℤ} :
    ∀ {l : List Rect} {i j : ℕ}, findContaining cx cy l i = some j →
      ∃ k, k < l.length ∧ j = i + k ∧ (l.getD k default).contains cx cy = true := by
  intro l
  induction l with
  | nil => intro i j h; simp [findContaining] at h
  | cons m rest ih =>
    intro i j h
    by_cases hc : m.contains cx cy = true
    · simp [findContaining, hc] at h
      exact ⟨0, by simp, by omega, by simpa using hc⟩
    · rw [findContaining, if_neg hc] at h
      obtain ⟨k, hk, hj, hcon⟩ := ih h
      exact ⟨k + 1, by simpa using hk, by omega, by simpa using hcon⟩

lemma findContaining_none {cx cy : ℤ} :
    ∀ {l : List Rect} {i : ℕ}, findContaining cx cy l i = none →
      ∀ k, k < l.length → (l.getD k default).contains cx cy = false := by
  intro l
  induction l with
  | nil => intro i _ k hk; simp at hk
  | cons m rest ih =>
    intro i h k hk
    by_cases hc : m.contains cx cy = true
    · simp [findContaining, hc] at h
    · rw [findContaining, if_neg (by simp [hc])] at h
      match k with
      | 0 => simpa using hc
      | k + 1 =>
        have := ih h k (by simpa using hk)
        simpa using this

lemma closestLoop_spec (cx cy : ℤ) :
    ∀ (rest : List Rect) (i bi : ℕ) (b : ℤ),
      ∃ bv bi2, closestLoop cx cy rest i (some b, bi) = (some bv, bi2) ∧
        bv ≤ b ∧
        ((bi2 = bi ∧ bv = b) ∨
          ∃ k, k < rest.length ∧ bi2 = i + k ∧ bv = sqDist (rest.getD k default) cx cy) ∧
        (∀ k, k < rest.length → bv ≤ sqDist (rest.getD k default) cx cy) := by
  intro rest
  induction rest with
  | nil =>
    intro i bi b
    exact ⟨b, bi, rfl, le_refl _, Or.inl ⟨rfl, rfl⟩, by intro k hk; simp at hk⟩
  | cons m rest ih =>
    intro i bi b
    by_cases hd : sqDist m cx cy < b
    · obtain ⟨bv, bi2, heq, hle, hdisj, hmin⟩ := ih (i + 1) i (sqDist m cx cy)
      refine ⟨bv, bi2, ?_, by omega, ?_, ?_⟩
      · rw [closestLoop]; simp only [if_pos hd]; exact heq
      · rcases hdisj with ⟨h1, h2⟩ | ⟨k, hk, h1, h2⟩
        · exact Or.inr ⟨0, by simp, by omega, by simpa using h2⟩
        · exact Or.inr ⟨k + 1, by simpa using hk, by omega, by simpa using h2⟩
      · intro k hk
        match k with
        | 0 => simpa using hle
        | k + 1 => simpa using hmin k (by simpa using hk)
    · obtain ⟨bv, bi2, heq, hle, hdisj, hmin⟩ := ih (i + 1) bi b
      refine ⟨bv, bi2, ?_, hle, ?_, ?_⟩
      · rw [closestLoop]; simp only [if_neg hd]; exact heq
      · rcases hdisj with ⟨h1, h2⟩ | ⟨k, hk, h1, h2⟩
        · exact Or.inl ⟨h1, h2⟩
        · exact Or.inr ⟨k + 1, by simpa using hk, by omega, by simpa using h2⟩
      · intro k hk
        match k with
        | 0 => simp only [List.getD_cons_zero]; omega
        | k + 1 => simpa using hmin k (by simpa using hk)

lemma closestIdx_spec (l : List Rect) (cx cy : ℤ) (h : l ≠ []) :
    closestIdx l cx cy < l.length ∧
      ∀ j, j < l.length →
        sqDist (l.getD (closestIdx l cx cy) default) cx cy ≤ sqDist (l.getD j default) cx cy := by
  match l with
  | [] => exact absurd rfl h
  | m :: rest =>
    have hstep : closestLoop cx cy (m :: rest) 0 (none, 0)
        = closestLoop cx cy rest 1 (some (sqDist m cx cy), 0) := rfl
    obtain ⟨bv, bi2, heq, hle, hdisj, hmin⟩ := closestLoop_spec cx cy rest 1 0 (sqDist m cx cy)
    have hidx : closestIdx (m :: rest) cx cy = bi2 := by
      simp [closestIdx, hstep, heq]
    rcases hdisj with ⟨h1, h2⟩ | ⟨k, hk, h1, h2⟩
    · constructor
      · rw [hidx, h1]; simp
      · intro j hj
        rw [hidx, h1]
        match j with
        | 0 => simp [h2]
        | j + 1 =>
          simp only [List.getD_cons_zero, List.getD_cons_succ]
          calc sqDist m cx cy = bv := h2.symm
            _ ≤ _ := hmin j (by simpa using hj)
    · constructor
      · rw [hidx, h1]; simp; omega
      · intro j hj
        have hself : sqDist ((m :: rest).getD bi2 default) cx cy = bv := by
          have h1' : bi2 = k + 1 := by omega
          rw [h1']; simpa using h2.symm
        rw [hidx, hself]
        match j with
        | 0 => simpa using hle
        | j + 1 => simpa using hmin j (by simpa using hj)

/-- C1: for a non-empty monitor list, `get_monitor_at(x, y)` returns an
index in `[0, monitorCount)`; it is the index of a rectangle containing
the point under half-open containment when one exists, and otherwise an
index whose rectangle's center is nearest to `(x, y)` in Euclidean
distance (stated via `Real.sqrt` of the squared integer distance to the
integer centers the code computes). -/
theorem get_monitor_at_spec (l : List Rect) (cx cy : ℤ) (h : l ≠ []) :
    get_monitor_at l cx cy < l.length ∧
      ((∃ i, i < l.length ∧ (l.getD i default).contains cx cy = true) →
        (l.getD (get_monitor_at l cx cy) default).contains cx cy = true) ∧
      ((∀ i, i < l.length → (l.getD i default).contains cx cy = false) →
        ∀ j, j < l.length →
          Real.sqrt ((sqDist (l.getD (get_monitor_at l cx cy) default) cx cy : ℤ) : ℝ)
            ≤ Real.sqrt ((sqDist (l.getD j default) cx cy : ℤ) : ℝ)) := by
  cases hfc : findContaining cx cy l 0 with
  | some i =>
    have hg : get_monitor_at l cx cy = i := by rw [get_monitor_at, hfc]
    obtain ⟨k, hk, hik, hcon⟩ := findContaining_some hfc
    have hik' : i = k := by omega
    rw [hg, hik']
    refine ⟨by omega, fun _ => hcon, fun hnone => ?_⟩
    exfalso
    have := hnone k hk
    rw [this] at hcon
    exact Bool.false_ne_true hcon
  | none =>
    have hg : get_monitor_at l cx cy = closestIdx l cx cy := by rw [get_monitor_at, hfc]
    obtain ⟨hlt, hmin⟩ := closestIdx_spec l cx cy h
    rw [hg]
    refine ⟨hlt, fun hex => ?_, fun _ j hj => ?_⟩
    · exfalso
      obtain ⟨i, hi, hcon⟩ := hex
      have := findContaining_none hfc i hi
      rw [this] at hcon
      exact Bool.false_ne_true hcon
    · exact Real.sqrt_le_sqrt (by exact_mod_cast hmin j hj)

/-- Witness for C1: two side-by-side monitors; the point `(5, 5)` is
contained in the first, and the result index is in range. -/
theorem get_monitor_at_spec_witness :
    ([⟨0, 0, 10, 10⟩, ⟨10, 0, 20, 10⟩] : List Rect) ≠ [] ∧
      get_monitor_at [⟨0, 0, 10, 10⟩, ⟨10, 0, 20, 10⟩] 5 5 < 2 ∧
      ((∃ i, i < ([⟨0, 0, 10, 10⟩, ⟨10, 0, 20, 10⟩] : List Rect).length ∧
          (([⟨0, 0, 10, 10⟩, ⟨10, 0, 20, 10⟩] : List Rect).getD i default).contains 5 5 = true) →
        (([⟨0, 0, 10, 10⟩, ⟨10, 0, 20, 10⟩] : List Rect).getD
            (get_monitor_at [⟨0, 0, 10, 10⟩, ⟨10, 0, 20, 10⟩] 5 5) default).contains 5 5 = true) := by
  refine ⟨by decide, ?_, (get_monitor_at_spec [⟨0, 0, 10, 10⟩, ⟨10, 0, 20, 10⟩] 5 5 (by decide)).2.1⟩
  exact (get_monitor_at_spec [⟨0, 0, 10, 10⟩, ⟨10, 0, 20, 10⟩] 5 5 (by decide)).1

lemma EdgeMap.get_set_self {α : Type} (m : EdgeMap α) (e : Edge) (v : α) :
    (m.set e v).get e = v := by
  cases e <;> rfl

lemma sqrtGE_iff (a b : ℚ) :
    sqrtGE a b = true ↔ (b : ℝ) ≤ Real.sqrt ((a : ℚ) : ℝ) := by
  unfold sqrtGE
  rw [decide_eq_true_iff]
  constructor
  · rintro (hb | hb)
    · exact le_trans (by exact_mod_cast hb) (Real.sqrt_nonneg _)
    · rcases le_or_lt b 0 with hb0 | hb0
      · exact le_trans (by exact_mod_cast hb0) (Real.sqrt_nonneg _)
      · rw [Real.le_sqrt' (by exact_mod_cast hb0)]
        exact_mod_cast hb
  · intro h
    rcases le_or_lt b 0 with hb0 | hb0
    · exact Or.inl hb0
    · refine Or.inr ?_
      have := (Real.le_sqrt' (x := (b : ℝ)) (by exact_mod_cast hb0)).mp h
      exact_mod_cast this

/-- C2: distance-mode edge resistance, one tick with a previous sample
recorded.  Let `orth` be the absolute orthogonal movement since the
previous sample (vertical for the left/right edges, horizontal for the
top/bottom edges) and `p` the cumulative pressure after adding it: the
wrap is allowed iff `p` has reached the threshold; on an allowed tick
the edge's pressure resets to 0, and on a denied tick the pressure is
`p` and is below the threshold. -/
theorem check_distance_spec (cfg : Config) (s : ERState) (edge : Edge)
    (x y lx ly : ℤ) (hlp : s.last_pos = some (lx, ly)) :
    ((checkDistance cfg s edge x y).1 = true ↔
        cfg.distance_threshold ≤ s.edge_pressure.get edge +
          (if edge = Edge.left ∨ edge = Edge.right then |y - ly| else |x - lx|)) ∧
      ((checkDistance cfg s edge x y).1 = true →
        (checkDistance cfg s edge x y).2.edge_pressure.get edge = 0) ∧
      ((checkDistance cfg s edge x y).1 = false →
        (checkDistance cfg s edge x y).2.edge_pressure.get edge =
            s.edge_pressure.get edge +
              (if edge = Edge.left ∨ edge = Edge.right then |y - ly| else |x - lx|) ∧
          s.edge_pressure.get edge +
              (if edge = Edge.left ∨ edge = Edge.right then |y - ly| else |x - lx|) <
            cfg.distance_threshold) := by
  by_cases he : edge = Edge.left ∨ edge = Edge.right
  · simp only [checkDistance, hlp, if_pos he, EdgeMap.get_set_self]
    by_cases ht : cfg.distance_threshold ≤ s.edge_pressure.get edge + |y - ly|
    · simp [ht, EdgeMap.get_set_self]
    · simp [ht, EdgeMap.get_set_self]
      omega
  · simp only [checkDistance, hlp, if_neg he, EdgeMap.get_set_self]
    by_cases ht : cfg.distance_threshold ≤ s.edge_pressure.get edge + |x - lx|
    · simp [ht, EdgeMap.get_set_self]
    · simp [ht, EdgeMap.get_set_self]
      omega

/-- Witness for C2: pressure 25 on the left edge, threshold 30, a
vertical jitter of 8 pixels: cumulative pressure 33 reaches the
threshold, the wrap is allowed and the pressure resets to 0. -/
theorem check_distance_spec_witness :
    (⟨EdgeMap.const none, ⟨25, 0, 0, 0⟩, some (0, 50), some 1⟩ : ERState).last_pos
        = some (0, 50) ∧
      ((checkDistance
          ⟨true, true, true, true, ERMode.distance, 15/100, 30, 800, true, 100, true, 2, 50,
            true, CrossStyle.brackets, 200⟩
          ⟨EdgeMap.const none, ⟨25, 0, 0, 0⟩, some (0, 50), some 1⟩ Edge.left 0 58).1 = true ↔
        (30 : ℤ) ≤ (⟨EdgeMap.const none, ⟨25, 0, 0, 0⟩, some (0, 50), some 1⟩ :
            ERState).edge_pressure.get Edge.left +
          (if Edge.left = Edge.left ∨ Edge.left = Edge.right then |(58 : ℤ) - 50| else |(0 : ℤ) - 0|)) := by
  exact ⟨rfl,
    (check_distance_spec
      ⟨true, true, true, true, ERMode.distance, 15/100, 30, 800, true, 100, true, 2, 50,
        true, CrossStyle.brackets, 200⟩
      ⟨EdgeMap.const none, ⟨25, 0, 0, 0⟩, some (0, 50), some 1⟩ Edge.left 0 58 0 50 rfl).1⟩

/-- C7: velocity-mode edge resistance on a tick with a recorded previous
sample and strictly positive elapsed time: the wrap is allowed iff the
Euclidean distance between the consecutive samples divided by the
elapsed time is at least the configured threshold (inclusive), and the
check leaves the resistance state unchanged (no per-edge state). -/
theorem check_velocity_spec (cfg : Config) (s : ERState) (edge : Edge)
    (x y lx ly : ℤ) (t now : Time)
    (hen : cfg.er_enabled = true) (hmode : cfg.er_mode = ERMode.velocity)
    (hlp : s.last_pos = some (lx, ly)) (hlt : s.last_time = some t)
    (hdt : 0 < now - t) :
    ((shouldAllowWrap cfg s edge x y now).1 = true ↔
        (cfg.velocity_threshold : ℝ) ≤
          Real.sqrt (((x - lx : ℤ) : ℝ) ^ 2 + ((y - ly : ℤ) : ℝ) ^ 2) / ((now - t : ℚ) : ℝ)) ∧
      (shouldAllowWrap cfg s edge x y now).2 = s := by
  have hred : shouldAllowWrap cfg s edge x y now = (checkVelocity cfg s x y now, s) := by
    rw [shouldAllowWrap, if_neg (by rw [hen]; exact Bool.true_eq_false ▸ (by simp)), hmode]
  rw [hred]
  refine ⟨?_, rfl⟩
  rw [checkVelocity, hlp, hlt]
  simp only [if_pos hdt]
  rw [sqrtGE_iff]
  have hdtR : (0 : ℝ) < ((now - t : ℚ) : ℝ) := by exact_mod_cast hdt
  rw [le_div_iff₀ hdtR]
  constructor
  · intro h
    calc ((cfg.velocity_threshold : ℚ) : ℝ) * ((now - t : ℚ) : ℝ)
        = ((cfg.velocity_threshold * (now - t) : ℚ) : ℝ) := by push_cast; ring
      _ ≤ _ := by
          refine le_trans h (le_of_eq ?_)
          congr 1
          push_cast
          ring
  · intro h
    calc ((cfg.velocity_threshold * (now - t) : ℚ) : ℝ)
        = ((cfg.velocity_threshold : ℚ) : ℝ) * ((now - t : ℚ) : ℝ) := by push_cast; ring
      _ ≤ Real.sqrt (((x - lx : ℤ) : ℝ) ^ 2 + ((y - ly : ℤ) : ℝ) ^ 2) := h
      _ = _ := by
          congr 1
          push_cast
          ring

/-- Witness for C7: previous sample `(0, 0)` at time 0, current sample
`(3, 4)` at time 1, threshold 5: speed is exactly 5, the wrap is allowed
(inclusive at equality) and the state is unchanged. -/
theorem check_velocity_spec_witness :
    (⟨true, true, true, true, ERMode.velocity, 15/100, 30, 5, true, 100, true, 2, 50,
        true, CrossStyle.brackets, 200⟩ : Config).er_enabled = true ∧
      ((shouldAllowWrap
          ⟨true, true, true, true, ERMode.velocity, 15/100, 30, 5, true, 100, true, 2, 50,
            true, CrossStyle.brackets, 200⟩
          ⟨EdgeMap.const none, EdgeMap.const 0, some (0, 0), some 0⟩ Edge.left 3 4 1).1 = true ↔
        ((5 : ℚ) : ℝ) ≤
          Real.sqrt (((3 : ℤ) - 0 : ℤ) ^ 2 + ((4 : ℤ) - 0 : ℤ) ^ 2 : ℝ) / (((1 : ℚ) - 0 : ℚ) : ℝ)) ∧
      (shouldAllowWrap
          ⟨true, true, true, true, ERMode.velocity, 15/100, 30, 5, true, 100, true, 2, 50,
            true, CrossStyle.brackets, 200⟩
          ⟨EdgeMap.const none, EdgeMap.const 0, some (0, 0), some 0⟩ Edge.left 3 4 1).2 =
        ⟨EdgeMap.const none, EdgeMap.const 0, some (0, 0), some 0⟩ := by
  have h := check_velocity_spec
    ⟨true, true, true, true, ERMode.velocity, 15/100, 30, 5, true, 100, true, 2, 50,
      true, CrossStyle.brackets, 200⟩
    ⟨EdgeMap.const none, EdgeMap.const 0, some (0, 0), some 0⟩ Edge.left 3 4 0 0 0 1
    rfl rfl rfl rfl (by norm_num)
  refine ⟨rfl, ?_, h.2⟩
  have h1 := h.1
  convert h1 using 3

/-- Behaviour of one axis of the acceleration edge resistance: the
low-boundary check followed by the high-boundary check on its output. -/
lemma accelChan_spec (ax b1 b2 pl0 pr0 r : ℤ) (hb : b1 < b2) :
    (ax < b1 →
      ((pl0 + (b1 - ax) < r →
          (accelEdgeHigh (accelEdgeLow ax b1 pl0 r).1 b2 pr0 r).1 = b1 ∧
            (accelEdgeLow ax b1 pl0 r).2 = pl0 + (b1 - ax)) ∧
        (r ≤ pl0 + (b1 - ax) →
          (accelEdgeHigh (accelEdgeLow ax b1 pl0 r).1 b2 pr0 r).1 = ax ∧
            (accelEdgeLow ax b1 pl0 r).2 = 0) ∧
        (accelEdgeHigh (accelEdgeLow ax b1 pl0 r).1 b2 pr0 r).2 = 0)) ∧
    (b2 ≤ ax →
      ((pr0 + (ax - (b2 - 1)) < r →
          (accelEdgeHigh (accelEdgeLow ax b1 pl0 r).1 b2 pr0 r).1 = b2 - 1 ∧
            (accelEdgeHigh (accelEdgeLow ax b1 pl0 r).1 b2 pr0 r).2 = pr0 + (ax - (b2 - 1))) ∧
        (r ≤ pr0 + (ax - (b2 - 1)) →
          (accelEdgeHigh (accelEdgeLow ax b1 pl0 r).1 b2 pr0 r).1 = ax ∧
            (accelEdgeHigh (accelEdgeLow ax b1 pl0 r).1 b2 pr0 r).2 = 0) ∧
        (accelEdgeLow ax b1 pl0 r).2 = 0)) ∧
    (b1 ≤ ax ∧ ax < b2 →
      (accelEdgeHigh (accelEdgeLow ax b1 pl0 r).1 b2 pr0 r).1 = ax ∧
        (accelEdgeLow ax b1 pl0 r).2 = 0 ∧
        (accelEdgeHigh (accelEdgeLow ax b1 pl0 r).1 b2 pr0 r).2 = 0) := by
  refine ⟨fun hlt => ?_, fun hge => ?_, fun hin => ?_⟩
  · by_cases hp : pl0 + (b1 - ax) < r
    · have h1 : accelEdgeLow ax b1 pl0 r = (b1, pl0 + (b1 - ax)) := by
        unfold accelEdgeLow
        rw [if_pos hlt, if_pos hp]
      have h2 : accelEdgeHigh b1 b2 pr0 r = (b1, 0) := by
        unfold accelEdgeHigh
        rw [if_neg (by omega)]
      have hcomp : accelEdgeHigh (accelEdgeLow ax b1 pl0 r).1 b2 pr0 r = (b1, 0) := by
        rw [h1]; exact h2
      exact ⟨fun _ => ⟨by rw [hcomp], by rw [h1]⟩,
        fun hcon => absurd hp (by omega), by rw [hcomp]⟩
    · have h1 : accelEdgeLow ax b1 pl0 r = (ax, 0) := by
        unfold accelEdgeLow
        rw [if_pos hlt, if_neg hp]
      have h2 : accelEdgeHigh ax b2 pr0 r = (ax, 0) := by
        unfold accelEdgeHigh
        rw [if_neg (by omega)]
      have hcomp : accelEdgeHigh (accelEdgeLow ax b1 pl0 r).1 b2 pr0 r = (ax, 0) := by
        rw [h1]; exact h2
      exact ⟨fun hcon => absurd hcon hp,
        fun _ => ⟨by rw [hcomp], by rw [h1]⟩, by rw [hcomp]⟩
  · have h1 : accelEdgeLow ax b1 pl0 r = (ax, 0) := by
      unfold accelEdgeLow
      rw [if_neg (by omega)]
    by_cases hp : pr0 + (ax - (b2 - 1)) < r
    · have h2 : accelEdgeHigh ax b2 pr0 r = (b2 - 1, pr0 + (ax - (b2 - 1))) := by
        unfold accelEdgeHigh
        rw [if_pos hge, if_pos hp]
      have hcomp : accelEdgeHigh (accelEdgeLow ax b1 pl0 r).1 b2 pr0 r
          = (b2 - 1, pr0 + (ax - (b2 - 1))) := by
        rw [h1]; exact h2
      exact ⟨fun _ => ⟨by rw [hcomp], by rw [hcomp]⟩,
        fun hcon => absurd hp (by omega), by rw [h1]⟩
    · have h2 : accelEdgeHigh ax b2 pr0 r = (ax, 0) := by
        unfold accelEdgeHigh
        rw [if_pos hge, if_neg hp]
      have hcomp : accelEdgeHigh (accelEdgeLow ax b1 pl0 r).1 b2 pr0 r = (ax, 0) := by
        rw [h1]; exact h2
      exact ⟨fun hcon => absurd hcon hp,
        fun _ => ⟨by rw [hcomp], by rw [hcomp]⟩, by rw [h1]⟩
  · have h1 : accelEdgeLow ax b1 pl0 r = (ax, 0) := by
      unfold accelEdgeLow
      rw [if_neg (by omega)]
    have h2 : accelEdgeHigh ax b2 pr0 r = (ax, 0) := by
      unfold accelEdgeHigh
      rw [if_neg (by omega)]
    have hcomp : accelEdgeHigh (accelEdgeLow ax b1 pl0 r).1 b2 pr0 r = (ax, 0) := by
      rw [h1]; exact h2
    exact ⟨by rw [hcomp], by rw [h1], by rw [hcomp]⟩

/-- C3: acceleration with the modifier held, a non-zero delta and a
positive edge-resistance threshold `R`.  With `ax`/`ay` the amplified
positions (previous position plus the truncated product of the raw delta
and the multiplier) and `m` the current monitor's rectangle: on each
axis, if the amplified position crosses a boundary the overflow past it
is added to that edge's pressure; the position is clamped to the
boundary while the accumulated pressure stays below `R`, and on the tick
the pressure reaches `R` the counter resets to 0 and the amplified
position passes through unclamped; an edge not overflowing this tick has
its pressure reset to 0. -/
theorem accel_resistance_spec (cfg : Config) (l : List Rect) (px py x y ax ay : ℤ)
    (ap : EdgeMap ℤ) (ctrl : Bool) (m : Rect)
    (hen : cfg.acceleration_enabled = true) (hc : ctrl = true)
    (hd : x - px ≠ 0 ∨ y - py ≠ 0) (hr : 0 < cfg.accel_edge_resistance)
    (hm : l.getD (get_monitor_at l px py) default = m)
    (hmx : m.x1 < m.x2) (hmy : m.y1 < m.y2)
    (hax : ax = accelAmp cfg px (x - px)) (hay : ay = accelAmp cfg py (y - py)) :
    let res := accelStep cfg l (some (px, py)) ap x y ctrl
    (ax < m.x1 →
      ((ap.get .left + (m.x1 - ax) < cfg.accel_edge_resistance →
          res.1 = m.x1 ∧ res.2.2.1.get .left = ap.get .left + (m.x1 - ax)) ∧
        (cfg.accel_edge_resistance ≤ ap.get .left + (m.x1 - ax) →
          res.1 = ax ∧ res.2.2.1.get .left = 0) ∧
        res.2.2.1.get .right = 0)) ∧
    (m.x2 ≤ ax →
      ((ap.get .right + (ax - (m.x2 - 1)) < cfg.accel_edge_resistance →
          res.1 = m.x2 - 1 ∧ res.2.2.1.get .right = ap.get .right + (ax - (m.x2 - 1))) ∧
        (cfg.accel_edge_resistance ≤ ap.get .right + (ax - (m.x2 - 1)) →
          res.1 = ax ∧ res.2.2.1.get .right = 0) ∧
        res.2.2.1.get .left = 0)) ∧
    (m.x1 ≤ ax ∧ ax < m.x2 →
      res.1 = ax ∧ res.2.2.1.get .left = 0 ∧ res.2.2.1.get .right = 0) ∧
    (ay < m.y1 →
      ((ap.get .top + (m.y1 - ay) < cfg.accel_edge_resistance →
          res.2.1 = m.y1 ∧ res.2.2.1.get .top = ap.get .top + (m.y1 - ay)) ∧
        (cfg.accel_edge_resistance ≤ ap.get .top + (m.y1 - ay) →
          res.2.1 = ay ∧ res.2.2.1.get .top = 0) ∧
        res.2.2.1.get .bottom = 0)) ∧
    (m.y2 ≤ ay →
      ((ap.get .bottom + (ay - (m.y2 - 1)) < cfg.accel_edge_resistance →
          res.2.1 = m.y2 - 1 ∧ res.2.2.1.get .bottom = ap.get .bottom + (ay - (m.y2 - 1))) ∧
        (cfg.accel_edge_resistance ≤ ap.get .bottom + (ay - (m.y2 - 1)) →
          res.2.1 = ay ∧ res.2.2.1.get .bottom = 0) ∧
        res.2.2.1.get .top = 0)) ∧
    (m.y1 ≤ ay ∧ ay < m.y2 →
      res.2.1 = ay ∧ res.2.2.1.get .top = 0 ∧ res.2.2.1.get .bottom = 0) := by
  intro res
  have hres : res = accelStep cfg l (some (px, py)) ap x y ctrl := rfl
  have hstep : accelStep cfg l (some (px, py)) ap x y ctrl =
      (let c := accelCore cfg l px py ap x y
       (c.1, c.2.1, c.2.2, if c.1 ≠ x ∨ c.2.1 ≠ y then some (c.1, c.2.1) else none)) := by
    rw [accelStep, if_pos ⟨hen, hc⟩, if_pos hd]
  have hcore : accelCore cfg l px py ap x y =
      (let r1 := accelEdgeLow (accelAmp cfg px (x - px)) m.x1 (ap.get .left)
          cfg.accel_edge_resistance
       let r2 := accelEdgeHigh r1.1 m.x2 (ap.get .right) cfg.accel_edge_resistance
       let r3 := accelEdgeLow (accelAmp cfg py (y - py)) m.y1 (ap.get .top)
          cfg.accel_edge_resistance
       let r4 := accelEdgeHigh r3.1 m.y2 (ap.get .bottom) cfg.accel_edge_resistance
       (r2.1, r4.1, ⟨r1.2, r2.2, r3.2, r4.2⟩)) := by
    rw [accelCore, hm, if_pos hr]
  have hx := accelChan_spec (accelAmp cfg px (x - px)) m.x1 m.x2 (ap.get .left)
    (ap.get .right) cfg.accel_edge_resistance hmx
  have hy := accelChan_spec (accelAmp cfg py (y - py)) m.y1 m.y2 (ap.get .top)
    (ap.get .bottom) cfg.accel_edge_resistance hmy
  rw [hres, hstep, hcore, hax, hay]
  exact ⟨hx.1, hx.2.1, hx.2.2, hy.1, hy.2.1, hy.2.2⟩

/-- Witness for C3: monitor `(0,0,100,100)`, previous position `(90,50)`,
raw sample `(96,50)`, multiplier 2, threshold 50: the amplified position
`90 + int(6*2) = 102` crosses the right boundary, the overflow
`102 - 99 = 3` accumulates and, being below 50, the position is clamped
to 99. -/
theorem accel_resistance_spec_witness :
    (0 : ℤ) < 50 ∧
      (accelStep
          ⟨true, true, true, false, ERMode.distance, 15/100, 30, 800, true, 100, true, 2, 50,
            true, CrossStyle.brackets, 200⟩
          [⟨0, 0, 100, 100⟩] (some (90, 50)) (EdgeMap.const 0) 96 50 true).1 = 99 ∧
      (accelStep
          ⟨true, true, true, false, ERMode.distance, 15/100, 30, 800, true, 100, true, 2, 50,
            true, CrossStyle.brackets, 200⟩
          [⟨0, 0, 100, 100⟩] (some (90, 50)) (EdgeMap.const 0) 96 50 true).2.2.1.get .right = 3 := by
  have h := accel_resistance_spec
    ⟨true, true, true, false, ERMode.distance, 15/100, 30, 800, true, 100, true, 2, 50,
      true, CrossStyle.brackets, 200⟩
    [⟨0, 0, 100, 100⟩] 90 50 96 50 102 50 (EdgeMap.const 0) true ⟨0, 0, 100, 100⟩
    rfl rfl (Or.inl (by decide)) (by decide) (by decide) (by decide) (by decide)
    (by norm_num [accelAmp, truncQ]) (by norm_num [accelAmp, truncQ])
  have h2 := (h.2.1 (by decide)).1 (by decide)
  exact ⟨by decide, by simpa using h2.1, by simpa using h2.2⟩

/-- Counterexample to C4 as stated: with monitors
`[(0,0,1920,1080), (1920,0,3840,1080)]`, the cursor sampled at
`(1919, 540)`, the switch modifier held, cooldown elapsed, previous raw
x `2069` (delta −150) and threshold 100, the code looks up the monitor
of the *sampled* position, which is monitor 0 (since `1919 < 1920`);
`cur > 0` fails, so no relocation directive is issued and the cursor
stays at `(1919, 540)` — not moved to `(960, 540)` as the claim states. -/
theorem switch_gesture_cex :
    switchStep
        ⟨true, true, true, false, ERMode.distance, 15/100, 30, 800, true, 100, true, 2, 50,
          true, CrossStyle.brackets, 200⟩
        [⟨0, 0, 1920, 1080⟩, ⟨1920, 0, 3840, 1080⟩] (some 2069) true 1919 540 10 0 =
      (none, 0, 1919, 540) := by
  norm_num [switchStep, get_monitor_at, findContaining, Rect.contains]

/-- C4 amended: the gesture fires only while the sampled position is
still on a monitor with a lower-index neighbor.  Same monitors,
modifier, cooldown, threshold 100 and delta −150, but sampled at
`(1920, 540)` (the leftmost column of monitor 1): the gesture relocates
the cursor to the center of monitor 0, position `(960, 540)`, and stamps
the cooldown. -/
theorem switch_gesture_amended :
    switchStep
        ⟨true, true, true, false, ERMode.distance, 15/100, 30, 800, true, 100, true, 2, 50,
          true, CrossStyle.brackets, 200⟩
        [⟨0, 0, 1920, 1080⟩, ⟨1920, 0, 3840, 1080⟩] (some 2070) true 1920 540 10 0 =
      (some (0, 960, 540), 10, 960, 540) := by
  norm_num [switchStep, get_monitor_at, findContaining, Rect.contains, warpTarget]
  exact ⟨by decide, by decide⟩

lemma edgeWrapVertical_mem {cfg : Config} {m : Rect} {er0 : ERState} {x y : ℤ} {now : Time}
    {e : Edge} {mx my : ℤ} (hmem : (e, mx, my) ∈ (edgeWrapVertical cfg m er0 x y now).2) :
    (e = Edge.top ∧ mx = x ∧ my = m.y2 - 2 ∧ y ≤ m.y1) ∨
      (e = Edge.bottom ∧ mx = x ∧ my = m.y1 + 1 ∧ m.y2 - 1 ≤ y) := by
  simp only [edgeWrapVertical] at hmem
  split_ifs at hmem with h1 h2 h3 h4 h5 <;>
    simp only [List.mem_singleton, List.not_mem_nil, Prod.mk.injEq] at hmem
  · exact Or.inl ⟨hmem.1, hmem.2.1, hmem.2.2, h2⟩
  · exact Or.inr ⟨hmem.1, hmem.2.1, hmem.2.2, h4⟩

lemma edgeWrapHorizontal_mem {cfg : Config} {l : List Rect} {b : Bounds} {er1 : ERState}
    {lwt : Time} {prevMon : Option ℕ} {x y : ℤ} {now : Time} {e : Edge} {mx my : ℤ}
    (hmem : (e, mx, my) ∈ (edgeWrapHorizontal cfg l b er1 lwt prevMon x y now).2.2.2) :
    (e = Edge.left ∧ my = y ∧ mx = b.max_x - 2 ∧ x ≤ b.min_x) ∨
      (e = Edge.right ∧ my = y ∧ mx = b.min_x + 1 ∧ b.max_x - 1 ≤ x) := by
  simp only [edgeWrapHorizontal] at hmem
  split_ifs at hmem with h1 h2 h3 h4 h5 <;>
    simp only [List.mem_singleton, List.not_mem_nil, Prod.mk.injEq] at hmem
  · exact Or.inl ⟨hmem.1, hmem.2.2, hmem.2.1, h2⟩
  · exact Or.inr ⟨hmem.1, hmem.2.2, hmem.2.1, h4⟩

lemma edgeWrapStep_moves (cfg : Config) (l : List Rect) (sw sh : ℤ) (er0 : ERState)
    (lwt : Time) (prevMon : Option ℕ) (x y : ℤ) (now : Time) :
    (edgeWrapStep cfg l sw sh er0 lwt prevMon x y now).2.2.2 =
      if cfg.edge_wrap_enabled = true then
        (edgeWrapVertical cfg (monRectAt l x y) er0 x y now).2 ++
          (edgeWrapHorizontal cfg l (get_screen_bounds l sw sh)
            (edgeWrapVertical cfg (monRectAt l x y) er0 x y now).1 lwt prevMon x y now).2.2.2
      else [] := by
  unfold edgeWrapStep
  split <;> rfl

/-- C10: every `move_mouse` target a fired edge-wrap issues lies
strictly inside both wrap-trigger bands of its axis whenever the wrapped
span is at least 3 pixels: a top-triggered wrap targets `my2 - 2` (two
above the bottom bound), a bottom-triggered one `my1 + 1` (one below the
top edge) against the current monitor's rectangle, and horizontal wraps
target `max_x - 2` / `min_x + 1` against the overall screen bounds — so
the commanded destination never satisfies a wrap-trigger condition
(`y <= my1`, `y >= my2 - 1`, `x <= min_x`, `x >= max_x - 1`) itself. -/
theorem edge_wrap_dest_spec (cfg : Config) (l : List Rect) (sw sh : ℤ) (er0 : ERState)
    (lwt : Time) (pm : Option ℕ) (x y : ℤ) (now : Time) (e : Edge) (mx my : ℤ)
    (hmem : (e, mx, my) ∈ (edgeWrapStep cfg l sw sh er0 lwt pm x y now).2.2.2) :
    (e = Edge.top → mx = x ∧ my = (monRectAt l x y).y2 - 2) ∧
    (e = Edge.bottom → mx = x ∧ my = (monRectAt l x y).y1 + 1) ∧
    (e = Edge.left → my = y ∧ mx = (get_screen_bounds l sw sh).max_x - 2) ∧
    (e = Edge.right → my = y ∧ mx = (get_screen_bounds l sw sh).min_x + 1) ∧
    ((e = Edge.top ∨ e = Edge.bottom) →
      3 ≤ (monRectAt l x y).y2 - (monRectAt l x y).y1 →
      (monRectAt l x y).y1 < my ∧ my < (monRectAt l x y).y2 - 1) ∧
    ((e = Edge.left ∨ e = Edge.right) →
      3 ≤ (get_screen_bounds l sw sh).max_x - (get_screen_bounds l sw sh).min_x →
      (get_screen_bounds l sw sh).min_x < mx ∧ mx < (get_screen_bounds l sw sh).max_x - 1) := by
  by_cases hew : cfg.edge_wrap_enabled = true
  · rw [edgeWrapStep_moves, if_pos hew, List.mem_append] at hmem
    rcases hmem with hv | hh
    · rcases edgeWrapVertical_mem hv with ⟨rfl, rfl, rfl, hb⟩ | ⟨rfl, rfl, rfl, hb⟩ <;>
        refine ⟨?_, ?_, ?_, ?_, ?_, ?_⟩ <;> intros <;> simp_all <;> omega
    · rcases edgeWrapHorizontal_mem hh with ⟨rfl, rfl, rfl, hb⟩ | ⟨rfl, rfl, rfl, hb⟩ <;>
        refine ⟨?_, ?_, ?_, ?_, ?_, ?_⟩ <;> intros <;> simp_all <;> omega
  · rw [edgeWrapStep_moves, if_neg hew] at hmem
    simp at hmem

/-- Witness for C10: a single 100×100 monitor with the cursor at its
top-left corner and resistance disabled: both a vertical (top) and a
horizontal (left) wrap fire; the top wrap's target `(0, 98)` is strictly
inside the vertical bands. -/
theorem edge_wrap_dest_spec_witness :
    ((Edge.top, (0 : ℤ), (98 : ℤ)) ∈
        (edgeWrapStep
          ⟨true, true, true, false, ERMode.distance, 15/100, 30, 800, true, 100, true, 2, 50,
            true, CrossStyle.brackets, 200⟩
          [⟨0, 0, 100, 100⟩] 100 100 ERState.init 0 (some 0) 0 0 1).2.2.2) ∧
      ((Edge.top = Edge.top →
          (0 : ℤ) = 0 ∧ (98 : ℤ) = (monRectAt [⟨0, 0, 100, 100⟩] 0 0).y2 - 2) ∧
        (Edge.top = Edge.bottom →
          (0 : ℤ) = 0 ∧ (98 : ℤ) = (monRectAt [⟨0, 0, 100, 100⟩] 0 0).y1 + 1) ∧
        (Edge.top = Edge.left →
          (98 : ℤ) = 0 ∧ (0 : ℤ) = (get_screen_bounds [⟨0, 0, 100, 100⟩] 100 100).max_x - 2) ∧
        (Edge.top = Edge.right →
          (98 : ℤ) = 0 ∧ (0 : ℤ) = (get_screen_bounds [⟨0, 0, 100, 100⟩] 100 100).min_x + 1) ∧
        ((Edge.top = Edge.top ∨ Edge.top = Edge.bottom) →
          3 ≤ (monRectAt [⟨0, 0, 100, 100⟩] 0 0).y2 - (monRectAt [⟨0, 0, 100, 100⟩] 0 0).y1 →
          (monRectAt [⟨0, 0, 100, 100⟩] 0 0).y1 < 98 ∧
            (98 : ℤ) < (monRectAt [⟨0, 0, 100, 100⟩] 0 0).y2 - 1) ∧
        ((Edge.top = Edge.left ∨ Edge.top = Edge.right) →
          3 ≤ (get_screen_bounds [⟨0, 0, 100, 100⟩] 100 100).max_x -
              (get_screen_bounds [⟨0, 0, 100, 100⟩] 100 100).min_x →
          (get_screen_bounds [⟨0, 0, 100, 100⟩] 100 100).min_x < 0 ∧
            (0 : ℤ) < (get_screen_bounds [⟨0, 0, 100, 100⟩] 100 100).max_x - 1)) := by
  refine ⟨by decide, ?_⟩
  exact edge_wrap_dest_spec
    ⟨true, true, true, false, ERMode.distance, 15/100, 30, 800, true, 100, true, 2, 50,
      true, CrossStyle.brackets, 200⟩
    [⟨0, 0, 100, 100⟩] 100 100 ERState.init 0 (some 0) 0 0 1 Edge.top 0 98 (by decide)

lemma naturalEdge_left_intro {nm om : Rect} {x y t : ℤ}
    (h1 : om.x1 < nm.x1) (h2 : x < nm.x1 + t) :
    naturalEdge nm om x y t = some (Edge.left, nm.x1) := by
  unfold naturalEdge
  rw [if_pos h1, if_pos h2]

lemma naturalEdge_right_intro {nm om : Rect} {x y t : ℤ}
    (h1 : nm.x1 < om.x1) (h2 : nm.x2 - t < x) :
    naturalEdge nm om x y t = some (Edge.right, nm.x2) := by
  unfold naturalEdge
  rw [if_neg (by omega), if_pos h1, if_pos h2]

lemma naturalEdge_top_intro {nm om : Rect} {x y t : ℤ}
    (h0 : nm.x1 = om.x1) (h1 : om.y1 < nm.y1) (h2 : y < nm.y1 + t) :
    naturalEdge nm om x y t = some (Edge.top, nm.y1) := by
  unfold naturalEdge
  rw [if_neg (by omega), if_neg (by omega), if_pos h1, if_pos h2]

lemma naturalEdge_bottom_intro {nm om : Rect} {x y t : ℤ}
    (h0 : nm.x1 = om.x1) (h1 : nm.y1 < om.y1) (h2 : nm.y2 - t < y) :
    naturalEdge nm om x y t = some (Edge.bottom, nm.y2) := by
  unfold naturalEdge
  rw [if_neg (by omega), if_neg (by omega), if_neg (by omega), if_pos h1, if_pos h2]

lemma naturalEdge_some_cases {nm om : Rect} {x y t : ℤ} {e : Edge} {p : ℤ}
    (h : naturalEdge nm om x y t = some (e, p)) :
    (e = Edge.left ∧ p = nm.x1 ∧ om.x1 < nm.x1 ∧ x < nm.x1 + t) ∨
      (e = Edge.right ∧ p = nm.x2 ∧ nm.x1 < om.x1 ∧ nm.x2 - t < x) ∨
      (e = Edge.top ∧ p = nm.y1 ∧ nm.x1 = om.x1 ∧ om.y1 < nm.y1 ∧ y < nm.y1 + t) ∨
      (e = Edge.bottom ∧ p = nm.y2 ∧ nm.x1 = om.x1 ∧ nm.y1 < om.y1 ∧ nm.y2 - t < y) := by
  unfold naturalEdge at h
  split_ifs at h with h1 h2 h3 h4 h5 h6 h7 h8 <;>
    simp only [Option.some.injEq, Prod.mk.injEq, reduceCtorEq] at h
  · exact Or.inl ⟨h.1.symm, h.2.symm, h1, h2⟩
  · exact Or.inr (Or.inl ⟨h.1.symm, h.2.symm, h3, h4⟩)
  · exact Or.inr (Or.inr (Or.inl ⟨h.1.symm, h.2.symm, by omega, h5, h6⟩))
  · exact Or.inr (Or.inr (Or.inr ⟨h.1.symm, h.2.symm, by omega, h7, h8⟩))

lemma teleFlashDir_isTeleport (nm om : Rect) (x y : ℤ) :
    (teleFlashDir nm om x y).isTeleport = true := by
  unfold teleFlashDir
  split_ifs <;> rfl

lemma teleFlashDir_eq_origin {nm om : Rect} {x y : ℤ}
    (h0 : nm.x1 = om.x1) (h1 : nm.y1 = om.y1) :
    teleFlashDir nm om x y = CrossOutcome.teleSilent := by
  unfold teleFlashDir
  rw [if_neg (by omega), if_neg (by omega), if_neg (by omega), if_neg (by omega)]

lemma teleFlashDir_ne_origin {nm om : Rect} {x y : ℤ}
    (h : nm.x1 ≠ om.x1 ∨ nm.y1 ≠ om.y1) :
    ∃ e p c, teleFlashDir nm om x y = CrossOutcome.teleFlash e p c := by
  unfold teleFlashDir
  split_ifs with h1 h2 h3 h4
  · exact ⟨_, _, _, rfl⟩
  · exact ⟨_, _, _, rfl⟩
  · exact ⟨_, _, _, rfl⟩
  · exact ⟨_, _, _, rfl⟩
  · exfalso
    rcases h with h | h <;> omega

lemma crossingStep_eq (cfg : Config) (l : List Rect) (pm : ℕ) (x y : ℤ) (now lwt : Time)
    (hh : cfg.highlight_enabled = true)
    (hm : get_monitor_at l x y ≠ pm)
    (ht : 1/10 < now - lwt) :
    crossingStep cfg l (some pm) x y now lwt =
      (match naturalEdge (l.getD (get_monitor_at l x y) default) (l.getD pm default) x y
          cfg.natural_cross_threshold with
        | some (e, pos) =>
          (CrossOutcome.natural e pos (if e = Edge.left ∨ e = Edge.right then y else x), now,
            get_monitor_at l x y)
        | none =>
          match cfg.monitor_cross_style with
          | .brackets => (CrossOutcome.teleBrackets x y, now, get_monitor_at l x y)
          | .edgeFlash =>
            (teleFlashDir (l.getD (get_monitor_at l x y) default) (l.getD pm default) x y, now,
              get_monitor_at l x y)) := by
  simp only [crossingStep]
  rw [if_pos ⟨hm, ht⟩, if_pos hh]

/-- C6 amended: on a classified tick (monitor changed, >100 ms since the
last warp, highlighting enabled), the outcome is a natural crossing at a
given entry edge iff the direction resolves to that edge (x origins
compared first, then y) and the coordinate lies within the configured
band on the entry side; every non-natural classification is a teleport;
with both origins equal the arrival defaults to teleport (brackets style
shows brackets, edge-flash style requests nothing); with some origin
differing a teleport requests the configured monitor-cross-style
indicator; and the cooldown is stamped and `prev_monitor` becomes the
current index. -/
theorem crossing_spec (cfg : Config) (l : List Rect) (pm : ℕ) (x y : ℤ) (now lwt : Time)
    (nm om : Rect) (t : ℤ)
    (hh : cfg.highlight_enabled = true)
    (hm : get_monitor_at l x y ≠ pm)
    (ht : 1/10 < now - lwt)
    (hnm : l.getD (get_monitor_at l x y) default = nm)
    (hom : l.getD pm default = om)
    (htt : cfg.natural_cross_threshold = t) :
    ((crossingStep cfg l (some pm) x y now lwt).1 = CrossOutcome.natural Edge.left nm.x1 y ↔
        om.x1 < nm.x1 ∧ x < nm.x1 + t) ∧
      ((crossingStep cfg l (some pm) x y now lwt).1 = CrossOutcome.natural Edge.right nm.x2 y ↔
        nm.x1 < om.x1 ∧ nm.x2 - t < x) ∧
      ((crossingStep cfg l (some pm) x y now lwt).1 = CrossOutcome.natural Edge.top nm.y1 x ↔
        nm.x1 = om.x1 ∧ om.y1 < nm.y1 ∧ y < nm.y1 + t) ∧
      ((crossingStep cfg l (some pm) x y now lwt).1 = CrossOutcome.natural Edge.bottom nm.y2 x ↔
        nm.x1 = om.x1 ∧ nm.y1 < om.y1 ∧ nm.y2 - t < y) ∧
      ((crossingStep cfg l (some pm) x y now lwt).1.isNatural = false →
        (crossingStep cfg l (some pm) x y now lwt).1.isTeleport = true) ∧
      (nm.x1 = om.x1 ∧ nm.y1 = om.y1 →
        (cfg.monitor_cross_style = CrossStyle.brackets →
          (crossingStep cfg l (some pm) x y now lwt).1 = CrossOutcome.teleBrackets x y) ∧
        (cfg.monitor_cross_style = CrossStyle.edgeFlash →
          (crossingStep cfg l (some pm) x y now lwt).1 = CrossOutcome.teleSilent)) ∧
      ((nm.x1 ≠ om.x1 ∨ nm.y1 ≠ om.y1) →
        (crossingStep cfg l (some pm) x y now lwt).1.isNatural = false →
        (cfg.monitor_cross_style = CrossStyle.brackets →
          (crossingStep cfg l (some pm) x y now lwt).1 = CrossOutcome.teleBrackets x y) ∧
        (cfg.monitor_cross_style = CrossStyle.edgeFlash →
          ∃ e p c, (crossingStep cfg l (some pm) x y now lwt).1 = CrossOutcome.teleFlash e p c)) ∧
      (crossingStep cfg l (some pm) x y now lwt).2.1 = now ∧
      (crossingStep cfg l (some pm) x y now lwt).2.2 = get_monitor_at l x y := by
  have hred := crossingStep_eq cfg l pm x y now lwt hh hm ht
  rw [hnm, hom, htt] at hred
  cases hne : naturalEdge nm om x y t with
  | some ep =>
    obtain ⟨e, p⟩ := ep
    rw [hne] at hred
    rcases naturalEdge_some_cases hne with ⟨rfl, rfl, hc1, hc2⟩ | ⟨rfl, rfl, hc1, hc2⟩ |
      ⟨rfl, rfl, hc0, hc1, hc2⟩ | ⟨rfl, rfl, hc0, hc1, hc2⟩ <;>
      rw [hred] <;>
      refine ⟨?_, ?_, ?_, ?_, ?_, ?_, ?_, ?_, ?_⟩ <;>
        simp_all [CrossOutcome.isNatural, CrossOutcome.isTeleport] <;>
        omega
  | none =>
    rw [hne] at hred
    have hnat1 : ¬(om.x1 < nm.x1 ∧ x < nm.x1 + t) := by
      rintro ⟨h1, h2⟩
      rw [naturalEdge_left_intro h1 h2] at hne
      exact Option.noConfusion hne
    have hnat2 : ¬(nm.x1 < om.x1 ∧ nm.x2 - t < x) := by
      rintro ⟨h1, h2⟩
      rw [naturalEdge_right_intro h1 h2] at hne
      exact Option.noConfusion hne
    have hnat3 : ¬(nm.x1 = om.x1 ∧ om.y1 < nm.y1 ∧ y < nm.y1 + t) := by
      rintro ⟨h0, h1, h2⟩
      rw [naturalEdge_top_intro h0 h1 h2] at hne
      exact Option.noConfusion hne
    have hnat4 : ¬(nm.x1 = om.x1 ∧ nm.y1 < om.y1 ∧ nm.y2 - t < y) := by
      rintro ⟨h0, h1, h2⟩
      rw [naturalEdge_bottom_intro h0 h1 h2] at hne
      exact Option.noConfusion hne
    cases hst : cfg.monitor_cross_style with
    | brackets =>
      rw [hst] at hred
      rw [hred]
      exact ⟨⟨fun hc => CrossOutcome.noConfusion hc, fun hc => absurd hc hnat1⟩,
        ⟨fun hc => CrossOutcome.noConfusion hc, fun hc => absurd hc hnat2⟩,
        ⟨fun hc => CrossOutcome.noConfusion hc, fun hc => absurd hc hnat3⟩,
        ⟨fun hc => CrossOutcome.noConfusion hc, fun hc => absurd hc hnat4⟩,
        fun _ => rfl,
        fun _ => ⟨fun _ => rfl, fun hco => absurd hco (by decide)⟩,
        fun _ _ => ⟨fun _ => rfl, fun hco => absurd hco (by decide)⟩,
        rfl, rfl⟩
    | edgeFlash =>
      rw [hst] at hred
      rw [hred]
      have hnn : ∀ e0 p0 c0, teleFlashDir nm om x y ≠ CrossOutcome.natural e0 p0 c0 := by
        intro e0 p0 c0
        unfold teleFlashDir
        split_ifs <;> exact fun hcon => CrossOutcome.noConfusion hcon
      exact ⟨⟨fun hc => absurd hc (hnn _ _ _), fun hc => absurd hc hnat1⟩,
        ⟨fun hc => absurd hc (hnn _ _ _), fun hc => absurd hc hnat2⟩,
        ⟨fun hc => absurd hc (hnn _ _ _), fun hc => absurd hc hnat3⟩,
        ⟨fun hc => absurd hc (hnn _ _ _), fun hc => absurd hc hnat4⟩,
        fun _ => teleFlashDir_isTeleport nm om x y,
        fun hco => ⟨fun hb => absurd hb (by decide),
          fun _ => teleFlashDir_eq_origin hco.1 hco.2⟩,
        fun hco _ => ⟨fun hb => absurd hb (by decide),
          fun _ => teleFlashDir_ne_origin hco⟩,
        rfl, rfl⟩

/-- Counterexample to C6 as stated: with the edge-flash monitor-cross
style and two rectangles sharing both origins (`(0,0,100,100)` and
`(0,0,50,200)`), an arrival at `(20,150)` on monitor 1 from monitor 0 is
classified as a teleport, but the direction chain falls through every
comparison and *no* indicator is requested — the claim says every
teleport arrival requests the configured monitor-cross-style indicator. -/
theorem crossing_indicator_cex :
    crossingStep
        ⟨true, true, true, false, ERMode.distance, 15/100, 30, 800, true, 100, true, 2, 50,
          true, CrossStyle.edgeFlash, 200⟩
        [⟨0, 0, 100, 100⟩, ⟨0, 0, 50, 200⟩] (some 0) 20 150 1 0 =
      (CrossOutcome.teleSilent, 1, 1) := by
  norm_num [crossingStep, get_monitor_at, findContaining, Rect.contains, naturalEdge,
    teleFlashDir]

/-- Witness for the amended C6: two side-by-side monitors, arrival at
`(105, 50)` on monitor 1 — within 200 px of the shared boundary at
x = 100 — is classified as a natural crossing entering from the left. -/
theorem crossing_spec_witness :
    ((1 : ℚ)/10 < 1 - 0) ∧
      ((crossingStep
          ⟨true, true, true, false, ERMode.distance, 15/100, 30, 800, true, 100, true, 2, 50,
            true, CrossStyle.brackets, 200⟩
          [⟨0, 0, 100, 100⟩, ⟨100, 0, 200, 100⟩] (some 0) 105 50 1 0).1 =
          CrossOutcome.natural Edge.left 100 50 ↔ (0 : ℤ) < 100 ∧ (105 : ℤ) < 100 + 200) := by
  refine ⟨by norm_num, ?_⟩
  exact (crossing_spec
    ⟨true, true, true, false, ERMode.distance, 15/100, 30, 800, true, 100, true, 2, 50,
      true, CrossStyle.brackets, 200⟩
    [⟨0, 0, 100, 100⟩, ⟨100, 0, 200, 100⟩] 0 105 50 1 0 ⟨100, 0, 200, 100⟩ ⟨0, 0, 100, 100⟩ 200
    rfl (by decide) (by norm_num) (by decide) (by decide) rfl).1

lemma accelStep_pos (cfg : Config) (l : List Rect) (prev : Option (ℤ × ℤ)) (ap : EdgeMap ℤ)
    (x y : ℤ) (ctrl : Bool) :
    ((accelStep cfg l prev ap x y ctrl).2.2.2 = none ∧
        (accelStep cfg l prev ap x y ctrl).1 = x ∧
        (accelStep cfg l prev ap x y ctrl).2.1 = y) ∨
      (accelStep cfg l prev ap x y ctrl).2.2.2 =
        some ((accelStep cfg l prev ap x y ctrl).1, (accelStep cfg l prev ap x y ctrl).2.1) := by
  match prev with
  | none => exact Or.inl ⟨rfl, rfl, rfl⟩
  | some (px, py) =>
    simp only [accelStep]
    split_ifs with h1 h2 h3
    · exact Or.inr rfl
    · push_neg at h3
      exact Or.inl ⟨rfl, h3.1, h3.2⟩
    · exact Or.inl ⟨rfl, rfl, rfl⟩
    · exact Or.inl ⟨rfl, rfl, rfl⟩

lemma switchStep_pos (cfg : Config) (l : List Rect) (prev_x : Option ℤ) (shift : Bool)
    (x y : ℤ) (now lwt : Time) :
    ((switchStep cfg l prev_x shift x y now lwt).1 = none ∧
        (switchStep cfg l prev_x shift x y now lwt).2.2 = (x, y)) ∨
      ∃ i tx ty, (switchStep cfg l prev_x shift x y now lwt).1 = some (i, tx, ty) ∧
        (switchStep cfg l prev_x shift x y now lwt).2.2 = (tx, ty) := by
  unfold switchStep
  by_cases h1 : cfg.monitor_switch_enabled = true
  case neg => rw [if_neg h1]; exact Or.inl ⟨rfl, rfl⟩
  rw [if_pos h1]
  cases prev_x with
  | none => exact Or.inl ⟨rfl, rfl⟩
  | some px =>
    dsimp only
    by_cases h2 : shift = true ∧ 2/5 < now - lwt
    case neg => rw [if_neg h2]; exact Or.inl ⟨rfl, rfl⟩
    rw [if_pos h2]
    by_cases h3 : x - px < -cfg.shift_threshold
    · rw [if_pos h3]
      by_cases h4 : 0 < get_monitor_at l x y
      case neg => rw [if_neg h4]; exact Or.inl ⟨rfl, rfl⟩
      rw [if_pos h4]
      cases hwt : warpTarget l (get_monitor_at l x y - 1) with
      | none => exact Or.inl ⟨rfl, rfl⟩
      | some t =>
        obtain ⟨tx, ty⟩ := t
        exact Or.inr ⟨_, tx, ty, rfl, rfl⟩
    · rw [if_neg h3]
      by_cases h5 : cfg.shift_threshold < x - px
      case neg => rw [if_neg h5]; exact Or.inl ⟨rfl, rfl⟩
      rw [if_pos h5]
      by_cases h6 : get_monitor_at l x y < l.length - 1
      case neg => rw [if_neg h6]; exact Or.inl ⟨rfl, rfl⟩
      rw [if_pos h6]
      cases hwt : warpTarget l (get_monitor_at l x y + 1) with
      | none => exact Or.inl ⟨rfl, rfl⟩
      | some t =>
        obtain ⟨tx, ty⟩ := t
        exact Or.inr ⟨_, tx, ty, rfl, rfl⟩

/-- C5 amended: the tracking state is updated unconditionally at the end
of every tick (`last_time` is always the tick's timestamp), and on every
tick on which *no edge-wrap fired* the recorded `last_pos` equals the
position the tick committed (reflecting acceleration and monitor-switch
moves).  An edge-wrap's destination, by contrast, is not folded back
into the tick's locals, so on wrap ticks the pre-wrap position is
recorded (see the counterexample). -/
theorem tracking_update_amended (cfg : Config) (s : LoopState) (x y : ℤ)
    (shift ctrl : Bool) (now : Time)
    (hw : (tick cfg s x y shift ctrl now).wrapFired = false) :
    (tick cfg s x y shift ctrl now).state.er.last_pos =
        some (committedPos x y (tick cfg s x y shift ctrl now).moves) ∧
      (tick cfg s x y shift ctrl now).state.er.last_time = some now := by
  simp only [tick, ERState.update, decide_eq_false_iff_not, ne_eq, not_not] at hw ⊢
  rw [hw]
  simp only [List.map_nil, List.append_nil]
  rcases switchStep_pos cfg s.mon_list (s.prev.map Prod.fst) shift
      (accelStep cfg s.mon_list s.prev s.accel_pressure x y ctrl).1
      (accelStep cfg s.mon_list s.prev s.accel_pressure x y ctrl).2.1 now
      (if shift = true ∧ s.prev_shift = false then 0 else s.last_warp_time) with
    hsw | hsw
  · obtain ⟨hd, hpos⟩ := hsw
    rcases accelStep_pos cfg s.mon_list s.prev s.accel_pressure x y ctrl with
      ⟨hmv, hax, hay⟩ | hmv
    · rw [hd, hmv, hpos, hax, hay]
      simp [committedPos]
    · rw [hd, hmv, hpos]
      simp [committedPos]
  · obtain ⟨i, tx, ty, hd, hpos⟩ := hsw
    rw [hd, hpos]
    simp [committedPos, List.getLast?_concat]

/-- Counterexample to C5 as stated: a single 100×100 monitor, the cursor
sampled at `(0, 50)` against the left edge with resistance disabled: the
tick commits an edge-wrap move to `(98, 50)`, but the resistance
tracking records `last_pos = (0, 50)` — the pre-wrap position, not the
position the tick committed — so the wrap jump does enter the next
tick's delta. -/
theorem tracking_update_cex :
    (tick
        ⟨true, true, true, false, ERMode.velocity, 15/100, 30, 800, false, 100, true, 2, 50,
          false, CrossStyle.brackets, 200⟩
        ⟨[⟨0, 0, 100, 100⟩], 100, 100, some (5, 50), 0, false, EdgeMap.const 0, some 0,
          ERState.init⟩
        0 50 false false 10).moves = [(98, 50)] ∧
      committedPos 0 50
          (tick
            ⟨true, true, true, false, ERMode.velocity, 15/100, 30, 800, false, 100, true, 2, 50,
              false, CrossStyle.brackets, 200⟩
            ⟨[⟨0, 0, 100, 100⟩], 100, 100, some (5, 50), 0, false, EdgeMap.const 0, some 0,
              ERState.init⟩
            0 50 false false 10).moves = (98, 50) ∧
      (tick
          ⟨true, true, true, false, ERMode.velocity, 15/100, 30, 800, false, 100, true, 2, 50,
            false, CrossStyle.brackets, 200⟩
          ⟨[⟨0, 0, 100, 100⟩], 100, 100, some (5, 50), 0, false, EdgeMap.const 0, some 0,
            ERState.init⟩
          0 50 false false 10).state.er.last_pos = some (0, 50) ∧
      ¬((98 : ℤ), (50 : ℤ)) = ((0 : ℤ), (50 : ℤ)) := by
  refine ⟨?_, ?_, ?_, by decide⟩ <;> decide

/-- Witness for the amended C5: an interior sample `(50, 50)` fires no
wrap; the tracking state records exactly the committed position and the
tick's timestamp. -/
theorem tracking_update_amended_witness :
    (tick
        ⟨true, true, true, false, ERMode.velocity, 15/100, 30, 800, false, 100, true, 2, 50,
          false, CrossStyle.brackets, 200⟩
        ⟨[⟨0, 0, 100, 100⟩], 100, 100, some (48, 50), 0, false, EdgeMap.const 0, some 0,
          ERState.init⟩
        50 50 false false 10).wrapFired = false ∧
      ((tick
          ⟨true, true, true, false, ERMode.velocity, 15/100, 30, 800, false, 100, true, 2, 50,
            false, CrossStyle.brackets, 200⟩
          ⟨[⟨0, 0, 100, 100⟩], 100, 100, some (48, 50), 0, false, EdgeMap.const 0, some 0,
            ERState.init⟩
          50 50 false false 10).state.er.last_pos =
          some (committedPos 50 50
            (tick
              ⟨true, true, true, false, ERMode.velocity, 15/100, 30, 800, false, 100, true, 2,
                50, false, CrossStyle.brackets, 200⟩
              ⟨[⟨0, 0, 100, 100⟩], 100, 100, some (48, 50), 0, false, EdgeMap.const 0, some 0,
                ERState.init⟩
              50 50 false false 10).moves) ∧
        (tick
            ⟨true, true, true, false, ERMode.velocity, 15/100, 30, 800, false, 100, true, 2, 50,
              false, CrossStyle.brackets, 200⟩
            ⟨[⟨0, 0, 100, 100⟩], 100, 100, some (48, 50), 0, false, EdgeMap.const 0, some 0,
              ERState.init⟩
            50 50 false false 10).state.er.last_time = some 10) := by
  refine ⟨by decide, ?_⟩
  exact tracking_update_amended
    ⟨true, true, true, false, ERMode.velocity, 15/100, 30, 800, false, 100, true, 2, 50,
      false, CrossStyle.brackets, 200⟩
    ⟨[⟨0, 0, 100, 100⟩], 100, 100, some (48, 50), 0, false, EdgeMap.const 0, some 0,
      ERState.init⟩
    50 50 false false 10 (by decide)

/-- Counterexample to C8 as stated: a tick whose pointer query fails
propagates the failure out of the tick — `query_pointer` has no
exception handler, so the failure is not logged-and-degraded, it
terminates the loop (only `KeyboardInterrupt` is caught at top level). -/
theorem query_failure_propagates :
    tickExc
        ⟨true, true, true, false, ERMode.distance, 15/100, 30, 800, true, 100, true, 2, 50,
          true, CrossStyle.brackets, 200⟩
        ⟨Except.error (), []⟩
        ⟨[⟨0, 0, 100, 100⟩], 100, 100, some (5, 50), 0, false, EdgeMap.const 0, some 0,
          ERState.init⟩
        10 =
      Except.error () := rfl

/-- C8 amended: failures of pointer *moves* (and, via the total
`refresh_monitor_geometry` model, monitor enumeration) are contained —
whenever the pointer query succeeds the tick completes normally, for any
move outcomes, and the move outcomes cannot change what the tick does;
but a pointer-*query* failure does propagate out of the tick. -/
theorem io_failure_amended (cfg : Config) (o : Oracle) (s : LoopState) (now : Time)
    (v : ℤ × ℤ × Bool × Bool) (hp : o.pointer = Except.ok v) :
    (∃ out, tickExc cfg o s now = Except.ok out) ∧
      (∀ mr : List Bool, tickExc cfg ⟨o.pointer, mr⟩ s now = tickExc cfg o s now) := by
  obtain ⟨x, y, shift, ctrl⟩ := v
  constructor
  · exact ⟨tick cfg s x y shift ctrl now, by rw [tickExc, hp]⟩
  · intro mr
    rfl

/-- Witness for the amended C8: a concrete successful pointer query with
an arbitrary failed move result; the tick completes. -/
theorem io_failure_amended_witness :
    (Oracle.mk (Except.ok ((50 : ℤ), (50 : ℤ), false, false)) [false]).pointer =
        Except.ok ((50 : ℤ), (50 : ℤ), false, false) ∧
      ((∃ out, tickExc
          ⟨true, true, true, false, ERMode.distance, 15/100, 30, 800, true, 100, true, 2, 50,
            true, CrossStyle.brackets, 200⟩
          ⟨Except.ok (50, 50, false, false), [false]⟩
          ⟨[⟨0, 0, 100, 100⟩], 100, 100, some (48, 50), 0, false, EdgeMap.const 0, some 0,
            ERState.init⟩
          10 = Except.ok out) ∧
        (∀ mr : List Bool, tickExc
            ⟨true, true, true, false, ERMode.distance, 15/100, 30, 800, true, 100, true, 2, 50,
              true, CrossStyle.brackets, 200⟩
            ⟨Except.ok (50, 50, false, false), mr⟩
            ⟨[⟨0, 0, 100, 100⟩], 100, 100, some (48, 50), 0, false, EdgeMap.const 0, some 0,
              ERState.init⟩
            10 =
          tickExc
            ⟨true, true, true, false, ERMode.distance, 15/100, 30, 800, true, 100, true, 2, 50,
              true, CrossStyle.brackets, 200⟩
            ⟨Except.ok (50, 50, false, false), [false]⟩
            ⟨[⟨0, 0, 100, 100⟩], 100, 100, some (48, 50), 0, false, EdgeMap.const 0, some 0,
              ERState.init⟩
            10)) := by
  refine ⟨rfl, ?_⟩
  exact io_failure_amended
    ⟨true, true, true, false, ERMode.distance, 15/100, 30, 800, true, 100, true, 2, 50,
      true, CrossStyle.brackets, 200⟩
    ⟨Except.ok (50, 50, false, false), [false]⟩
    ⟨[⟨0, 0, 100, 100⟩], 100, 100, some (48, 50), 0, false, EdgeMap.const 0, some 0,
      ERState.init⟩
    10 (50, 50, false, false) rfl

lemma insertRect_length (r : Rect) (l : List Rect) :
    (insertRect r l).length = l.length + 1 := by
  induction l with
  | nil => rfl
  | cons a rest ih =>
    unfold insertRect
    split_ifs <;> simp [ih]

lemma sortRects_length (l : List Rect) : (sortRects l).length = l.length := by
  induction l with
  | nil => rfl
  | cons a rest ih =>
    show (insertRect a (sortRects rest)).length = rest.length + 1
    rw [insertRect_length, ih]

lemma sortRects_ne_nil {l : List Rect} (h : l ≠ []) : sortRects l ≠ [] := by
  intro hc
  have hlen := sortRects_length l
  rw [hc] at hlen
  exact h (List.eq_nil_of_length_eq_zero hlen.symm)

lemma refreshCompute_nonempty (nl0 : List Rect) (wh0 : ℤ × ℤ) (root_geom : ℤ × ℤ)
    (s : GeoState) (now : Time) :
    (refreshCompute nl0 wh0 root_geom s now).2.mon_list ≠ [] := by
  simp only [refreshCompute]
  split_ifs with h1 h2
  · exact sortRects_ne_nil (by simp)
  · exact sortRects_ne_nil h2
  · exact sortRects_ne_nil (by intro hc; exact h1 (Or.inl hc))

/-- C9: after every call to `refresh_monitor_geometry` the monitor list
is non-empty — unconditionally whenever the refresh executes (forced or
past the debounce window, with or without enumeration succeeding, thanks
to the root-geometry fallback), and on a debounced call because the
prior list is preserved (it is non-empty from the initial forced
refresh onward). -/
theorem refresh_nonempty (force : Bool) (now : Time) (xr : Option (List Rect))
    (xd : Option (ℤ × ℤ)) (rg : ℤ × ℤ) (s : GeoState)
    (h : s.mon_list ≠ [] ∨ force = true ∨ ¬(now - s.last_refresh < 1/5)) :
    (refresh_monitor_geometry force now xr xd rg s).2.mon_list ≠ [] := by
  unfold refresh_monitor_geometry
  by_cases hdb : force = false ∧ now - s.last_refresh < 1/5
  · rw [if_pos hdb]
    rcases h with h | h | h
    · exact h
    · rw [h] at hdb
      exact absurd hdb.1 (by simp)
    · exact absurd hdb.2 h
  · rw [if_neg hdb]
    exact refreshCompute_nonempty _ _ _ _ _

/-- Witness for C9: a forced refresh from an empty prior list with both
xrandr and xdpyinfo failing falls back to a single root-sized monitor. -/
theorem refresh_nonempty_witness :
    ((⟨[], 0, 0, 0⟩ : GeoState).mon_list ≠ [] ∨ true = true ∨
        ¬((10 : ℚ) - (⟨[], 0, 0, 0⟩ : GeoState).last_refresh < 1/5)) ∧
      (refresh_monitor_geometry true 10 none none (800, 600)
          ⟨[], 0, 0, 0⟩).2.mon_list ≠ [] := by
  refine ⟨Or.inr (Or.inl rfl), ?_⟩
  exact refresh_nonempty true 10 none none (800, 600) ⟨[], 0, 0, 0⟩ (Or.inr (Or.inl rfl))

end MouseWarp
